import Mathlib

/-!
Verification of the MonteCarlo dice simulator (`src/MonteCarlo/MonteCarlo.py`)
against its natural-language specification.

The Python module has three classes: `Die` (a weighted die), `Game` (a
collection of dice sharing a face array, rolled in bulk), and `Analyzer`
(statistics over a played game's results).  We embed them shallowly:

* Faces are `Int` (the source allows numbers or strings; every claim only
  needs the numeric case).  Weights (Python floats) are embedded as `ℚ`.
* The pandas DataFrame `Die._die` (index = faces, one `weight` column) is an
  association list `List (Int × ℚ)` in index order.
* Python exceptions become the `PyError` sum, and fallible methods return
  `Except PyError _`.
* The pseudo-random draw inside `Die.roll_die`
  (`self._die.sample(weights=...)`, which returns some row of the frame's
  index, which row depending on the PRNG and the weights) is abstracted by an
  oracle `pick : Nat → Nat` choosing, for each draw, an index into the frame;
  the chosen position is `pick i % d._die.length`.  Sampling a frame with an
  empty index raises in pandas, so theorems about rolling carry a
  nonemptiness hypothesis.
* `Game.results`, a DataFrame attribute that does not exist before the first
  `play` call, is `Option (List (List Int))`: the list of rows of the wide
  table (row = one roll, entry = outcome of one die).
-/

namespace MonteCarlo

/-- The Python exception kinds raised by the module. -/
inductive PyError where
  | valueError
  | typeError
  | indexError
  | attributeError
deriving DecidableEq, Repr

/-- Python class `Die`: `faces` is the constructor argument (`self.faces`);
`_die` is the private DataFrame `self._die` with faces as index and the
weight column, embedded as an association list in index order. -/
structure Die where
  faces : List Int
  _die : List (Int × ℚ)
deriving DecidableEq, Repr

/-- Source `Die.__init__`: requires distinct faces
(`len(faces) != len(np.unique(faces))` raises `ValueError`), then sets every
weight to `1.0` and builds the frame with faces in the index.  (The
`np.ndarray` type check of the source cannot fail here: the argument is
already a `List Int`.) -/
def Die.init (faces : List Int) : Except PyError Die :=
  if faces.Nodup then
    Except.ok { faces := faces, _die := faces.map (fun f => (f, (1 : ℚ))) }
  else
    Except.error PyError.valueError

/-- The possible Python values passed as `adjusted_weight` to
`Die.adjust_weight`: an `int`, a `float`, a string parseable by `float()`,
a string `float()` rejects (raising `ValueError`), or any other
non-numeric object (on which `float()` raises `TypeError`). -/
inductive WeightInput where
  | int : Int → WeightInput
  | float : ℚ → WeightInput
  | strNum : ℚ → WeightInput
  | strBad : String → WeightInput
  | other : WeightInput
deriving DecidableEq, Repr

/-- The numeric value the source ends up storing for a `WeightInput`, or
`none` when the coercion fails.  `int` and `float` pass the
`type(adjusted_weight)` test and are stored as given; `strNum` is converted
by `float(...)`; `strBad` makes `float` raise `ValueError` (caught, re-raised
as `TypeError`); `other` makes `float` raise `TypeError` (uncaught — still a
`TypeError` for the caller). -/
def WeightInput.toFloat : WeightInput → Option ℚ
  | WeightInput.int n => some (n : ℚ)
  | WeightInput.float q => some q
  | WeightInput.strNum q => some q
  | WeightInput.strBad _ => none
  | WeightInput.other => none

/-- Source `Die.adjust_weight`: raises `IndexError` when the face is not in the
frame's index, `TypeError` when the weight is neither numeric nor castable,
otherwise writes the new weight at that face
(`self._die.loc[face_value, 'weight'] = adjusted_weight`). -/
def Die.adjust_weight (d : Die) (face_value : Int) (adjusted_weight : WeightInput) :
    Except PyError Die :=
  if face_value ∈ d._die.map Prod.fst then
    match adjusted_weight.toFloat with
    | some v =>
        Except.ok { d with
          _die := d._die.map (fun p => if p.1 = face_value then (p.1, v) else p) }
    | none => Except.error PyError.typeError
  else
    Except.error PyError.indexError

/-- Source `Die.roll_die`: `n_rolls` weighted draws with replacement from the
frame's index; which row each draw picks is the oracle's choice
(`pick i % d._die.length`).  The method only reads `self`, so the die
comes back unchanged as the second component. -/
def Die.roll_die (d : Die) (pick : Nat → Nat) (n_rolls : Nat := 1) :
    List Int × Die :=
  ((List.range n_rolls).map
    (fun i => (d._die.map Prod.fst).getD (pick i % d._die.length) 0), d)

/-- Python class `Game`: `self.dice` is the list given to the constructor; `self.results`
does not exist before the first `play` call (`none`) and afterwards holds the
rows of the wide table. -/
structure Game where
  dice : List Die
  results : Option (List (List Int))
deriving DecidableEq, Repr

/-- Source `Game.__init__`: reads `similar_dice[0].faces` (so an empty list raises
`IndexError` before any state is set), then raises `ValueError` unless every
die's face array is `np.array_equal` to the first's — element-wise equality
of the arrays, order included. -/
def Game.init (similar_dice : List Die) : Except PyError Game :=
  match similar_dice with
  | [] => Except.error PyError.indexError
  | d0 :: _ =>
    if similar_dice.all (fun d => decide (d.faces = d0.faces)) then
      Except.ok { dice := similar_dice, results := none }
    else
      Except.error PyError.valueError

/-- Source `Game.play`: rolls each die `n_rolls` times (die `j` consumes oracle
`picks j`), then stores `pd.DataFrame(results).T` — the transpose of the
per-die outcome lists — as the new `results`, replacing any previous value.
Row `i` of the wide table is the list of die outcomes on roll `i`; the
1-based index and the `Die k` column labels of the source are presentational
and carried by position here. -/
def Game.play (g : Game) (picks : Nat → Nat → Nat) (n_rolls : Nat) : Game :=
  let per_die := g.dice.enum.map (fun p => (p.2.roll_die (picks p.1) n_rolls).1)
  { g with
    results := some ((List.range n_rolls).map
      (fun i => per_die.map (fun r => r.getD i 0))) }

/-- The rows of the narrow table: `self.results.stack()` flattens the wide
table row-major into one `((roll, die), outcome)` row per cell, roll and die
numbered from 1. -/
def narrowRows (rows : List (List Int)) : List (Nat × Nat × Int) :=
  (rows.enum.map (fun p => p.2.enum.map (fun q => (p.1 + 1, q.1 + 1, q.2)))).flatten

/-- The two shapes `Game.disp_results` can return. -/
inductive DispResult where
  | wide : List (List Int) → DispResult
  | narrow : List (Nat × Nat × Int) → DispResult
deriving DecidableEq, Repr

/-- Source `Game.disp_results`: a copy of `results` in wide form, the stacked narrow
form, or `ValueError` for any other format string.  Accessing
`self.results` before any `play` call raises `AttributeError` (the attribute
does not exist); the format check happens first, so a bad format string
raises `ValueError` even on an unplayed game. -/
def Game.disp_results (g : Game) (form : String := "wide") :
    Except PyError DispResult :=
  if form = "wide" then
    match g.results with
    | some r => Except.ok (DispResult.wide r)
    | none => Except.error PyError.attributeError
  else if form = "narrow" then
    match g.results with
    | some r => Except.ok (DispResult.narrow (narrowRows r))
    | none => Except.error PyError.attributeError
  else
    Except.error PyError.valueError

/-- Python class `Analyzer`: holds the game passed to the constructor (`self.game`).  The
constructor's `type(game) is Game` check cannot fail in the embedding, where
the argument is already a `Game`. -/
structure Analyzer where
  game : Game
deriving DecidableEq, Repr

/-- One iteration of building a Python `dict` of counts: if the key is
already present, increment its count, otherwise insert it with count 1.
The dict is an association list in key-insertion order. -/
def tallyStep {α : Type} [DecidableEq α] (acc : List (α × Nat)) (k : α) :
    List (α × Nat) :=
  if acc.any (fun p => decide (p.1 = k)) then
    acc.map (fun p => if p.1 = k then (p.1, p.2 + 1) else p)
  else
    acc ++ [(k, 1)]

/-- Building a Python `dict` of counts by iterating a list — the idiom shared
by `n_faces_per_roll` (per-roll face counts), `n_combinations` and
`n_permutations` (per-key roll counts). -/
def tally {α : Type} [DecidableEq α] (l : List α) : List (α × Nat) :=
  l.foldl tallyStep []

/-- Source `Analyzer.n_jackpots` on the rows of `results`: count the rows whose
value set has exactly one element (`len(set(roll)) == 1`). -/
def n_jackpots_rows (rows : List (List Int)) : Nat :=
  rows.countP (fun roll => decide (roll.dedup.length = 1))

/-- Method `Analyzer.n_jackpots`: reads `self.game.results` (raising
`AttributeError` if the game was never played). -/
def Analyzer.n_jackpots (a : Analyzer) : Except PyError Nat :=
  match a.game.results with
  | some rows => Except.ok (n_jackpots_rows rows)
  | none => Except.error PyError.attributeError

/-- The column list `sorted([1, 2, 3, 4, 5, 6])` hard-coded in
`Analyzer.n_faces_per_roll`'s `reindex` call. -/
def facesDomain : List Int := [1, 2, 3, 4, 5, 6]

/-- Source `Analyzer.n_faces_per_roll` on the rows of `results`: per roll, a dict
of face counts; then `pd.DataFrame(...).fillna(0)` and
`reindex(columns=sorted([1, 2, 3, 4, 5, 6]), fill_value=0)` — cell `(i, f)`
is the roll's dict value at `f` if present and `0` otherwise, and the column
list is exactly `facesDomain` (observed columns outside it are dropped).
Returned as (column list, rows of counts in column order). -/
def n_faces_per_roll_rows (rows : List (List Int)) :
    List Int × List (List Nat) :=
  let face_counts := rows.map (fun roll => tally roll)
  (facesDomain,
   face_counts.map (fun counts =>
     facesDomain.map (fun f => ((counts.lookup f).getD 0))))

/-- Method `Analyzer.n_faces_per_roll`: reads `self.game.results`. -/
def Analyzer.n_faces_per_roll (a : Analyzer) :
    Except PyError (List Int × List (List Nat)) :=
  match a.game.results with
  | some rows => Except.ok (n_faces_per_roll_rows rows)
  | none => Except.error PyError.attributeError

/-- Python `sorted(roll)`: the outcomes of the roll in ascending order. -/
def sortRoll (roll : List Int) : List Int :=
  roll.insertionSort (· ≤ ·)

/-- Source `Analyzer.n_combinations` on the rows of `results`: tally the rolls by
their sorted outcome tuple; one table row per distinct combination, with its
count. -/
def n_combinations_rows (rows : List (List Int)) : List (List Int × Nat) :=
  tally (rows.map sortRoll)

/-- Method `Analyzer.n_combinations`: reads `self.game.results`. -/
def Analyzer.n_combinations (a : Analyzer) :
    Except PyError (List (List Int × Nat)) :=
  match a.game.results with
  | some rows => Except.ok (n_combinations_rows rows)
  | none => Except.error PyError.attributeError

/-- Source `Analyzer.n_permutations` on the rows of `results`: tally the rolls by
their outcome tuple as rolled (no sorting). -/
def n_permutations_rows (rows : List (List Int)) : List (List Int × Nat) :=
  tally rows

/-- Method `Analyzer.n_permutations`: reads `self.game.results`. -/
def Analyzer.n_permutations (a : Analyzer) :
    Except PyError (List (List Int × Nat)) :=
  match a.game.results with
  | some rows => Except.ok (n_permutations_rows rows)
  | none => Except.error PyError.attributeError

/-- The sum of the count column of a tally table. -/
def sumCounts {α : Type} (l : List (α × Nat)) : Nat :=
  (l.map Prod.snd).sum

/-!
Heap model for the aliasing behaviour of `Die.show_die`.  Pandas DataFrames
are mutable heap objects; `self._die.copy()` allocates a fresh frame with the
same contents, while returning `self._die` directly would hand out a live
reference.  We model the heap as a list of frames addressed by position.
-/

/-- A heap of DataFrames; a reference is a position in the list. -/
structure PDStore where
  frames : List (List (Int × ℚ))
deriving DecidableEq, Repr

/-- Reading the frame a reference points to. -/
def PDStore.read (s : PDStore) (r : Nat) : List (Int × ℚ) :=
  s.frames.getD r []

/-- Mutating the frame a reference points to (what a caller does to the
DataFrame returned by `show_die`). -/
def PDStore.write (s : PDStore) (r : Nat) (df : List (Int × ℚ)) : PDStore :=
  ⟨s.frames.set r df⟩

/-- Source `Die.show_die` as a heap operation: `return self._die.copy()`
allocates a fresh frame holding the same contents as the frame `dieRef` (the
reference the die holds to its private `_die`) and returns a reference to
the new frame. -/
def show_die_heap (s : PDStore) (dieRef : Nat) : PDStore × Nat :=
  (⟨s.frames ++ [s.read dieRef]⟩, s.frames.length)

/-!
Concrete objects used by counterexamples and witnesses.
-/

/-- The die `Die(np.array([1, 2, 3]))`. -/
def dieA : Die := { faces := [1, 2, 3], _die := [(1, 1), (2, 1), (3, 1)] }

/-- The die `Die(np.array([3, 2, 1]))` — same face set as `dieA`, reversed
order. -/
def dieB : Die := { faces := [3, 2, 1], _die := [(3, 1), (2, 1), (1, 1)] }

/-- The die `Die(np.array([7, 8]))` — a face domain outside `{1, ..., 6}`. -/
def die78 : Die := { faces := [7, 8], _die := [(7, 1), (8, 1)] }

/-- The game `Game([die78])`, not yet played. -/
def game78 : Game := { dice := [die78], results := none }

/-- The game `Game([dieA])`, not yet played. -/
def gameA : Game := { dice := [dieA], results := none }

/-- The wide results rows of the concrete scenario of the spec:
`Die1 = [1, 2, 3, 1, 5]`, `Die2 = [1, 2, 4, 1, 6]`. -/
def jackpotRows : List (List Int) :=
  [[1, 1], [2, 2], [3, 4], [1, 1], [5, 6]]

/-! ## Helper lemmas about association lists -/

theorem mapFst_map_update {α β : Type} [DecidableEq α]
    (l : List (α × β)) (k : α) (g : α × β → β) :
    (l.map (fun p => if p.1 = k then (p.1, g p) else p)).map Prod.fst
      = l.map Prod.fst := by
  induction l with
  | nil => rfl
  | cons p l ih =>
    by_cases hp : p.1 = k <;> simp [hp, ih]

theorem lookup_cons_eq {α β : Type} [BEq α] [LawfulBEq α] [DecidableEq α]
    (k a : α) (b : β) (l : List (α × β)) :
    List.lookup k ((a, b) :: l) = if k = a then some b else List.lookup k l := by
  by_cases h : k = a
  · subst h
    simp [List.lookup]
  · have hb : (k == a) = false := beq_eq_false_iff_ne.mpr h
    simp [List.lookup, hb, h]

theorem lookup_map_update_self {α β : Type} [BEq α] [LawfulBEq α] [DecidableEq α]
    (l : List (α × β)) (k : α) (g : α × β → β) :
    (l.map (fun p => if p.1 = k then (p.1, g p) else p)).lookup k
      = (l.lookup k).map (fun b => g (k, b)) := by
  induction l with
  | nil => rfl
  | cons p l ih =>
    obtain ⟨a, b⟩ := p
    by_cases hp : a = k
    · subst hp
      rw [List.map_cons, if_pos (rfl : (a, b).1 = a),
        lookup_cons_eq, lookup_cons_eq, if_pos rfl, if_pos rfl]
      rfl
    · rw [List.map_cons, if_neg (hp : ¬(a, b).1 = k),
        lookup_cons_eq, lookup_cons_eq,
        if_neg (fun hc => hp hc.symm), if_neg (fun hc => hp hc.symm), ih]

theorem lookup_map_update_ne {α β : Type} [BEq α] [LawfulBEq α] [DecidableEq α]
    (l : List (α × β)) (k k' : α) (g : α × β → β) (h : k' ≠ k) :
    (l.map (fun p => if p.1 = k then (p.1, g p) else p)).lookup k'
      = l.lookup k' := by
  induction l with
  | nil => rfl
  | cons p l ih =>
    obtain ⟨a, b⟩ := p
    by_cases hp : a = k
    · subst hp
      rw [List.map_cons, if_pos (rfl : (a, b).1 = a),
        lookup_cons_eq, lookup_cons_eq, if_neg h, if_neg h]
      exact ih
    · rw [List.map_cons, if_neg (hp : ¬(a, b).1 = k),
        lookup_cons_eq, lookup_cons_eq]
      by_cases ha : k' = a
      · rw [if_pos ha, if_pos ha]
      · rw [if_neg ha, if_neg ha]
        exact ih

theorem lookup_eq_none_iff {α β : Type} [BEq α] [LawfulBEq α] [DecidableEq α]
    (l : List (α × β)) (k : α) :
    l.lookup k = none ↔ k ∉ l.map Prod.fst := by
  induction l with
  | nil => simp
  | cons p l ih =>
    obtain ⟨a, b⟩ := p
    rw [lookup_cons_eq]
    by_cases ha : k = a
    · subst ha
      simp
    · rw [if_neg ha, ih]
      simp [ha]

theorem lookup_isSome_of_mem {α β : Type} [BEq α] [LawfulBEq α] [DecidableEq α]
    (l : List (α × β)) (k : α) (h : k ∈ l.map Prod.fst) :
    ∃ b, l.lookup k = some b := by
  rcases ho : l.lookup k with _ | b
  · exact absurd h ((lookup_eq_none_iff l k).mp ho)
  · exact ⟨b, rfl⟩

/-! ## Claim theorems -/

/-- C10: constructing a `Game` from an empty dice sequence never succeeds —
the subscript `similar_dice[0]` raises `IndexError` before any game state is
established, so no game with zero dice is ever produced. -/
theorem c10_empty_dice_fails :
    Game.init [] = Except.error PyError.indexError := rfl

/-- C8: `disp_results` with any format string other than `"wide"` or
`"narrow"` fails with `InvalidFormat` (a `ValueError`), whatever the game
state — in particular also when `play` was never called and `results` is
absent. -/
theorem c8_invalid_format (g : Game) (form : String)
    (h1 : form ≠ "wide") (h2 : form ≠ "narrow") :
    g.disp_results form = Except.error PyError.valueError := by
  simp [Game.disp_results, h1, h2]

/-- Witness for C8: the unplayed empty game and the format `"bogus"`. -/
theorem c8_invalid_format_witness :
    Game.disp_results { dice := [], results := none } "bogus"
      = Except.error PyError.valueError :=
  c8_invalid_format { dice := [], results := none } "bogus"
    (by decide) (by decide)

/-- C1 counterexample: the dice built from `[1, 2, 3]` and `[3, 2, 1]` have
set-equal face sets, yet constructing a game from them fails with
`MismatchedFaces` (a `ValueError`) — the source compares face arrays with
`np.array_equal`, which is order-dependent, not an order-independent set
comparison as the claim states. -/
theorem c1_counterexample :
    Die.init [1, 2, 3] = Except.ok dieA ∧
    Die.init [3, 2, 1] = Except.ok dieB ∧
    dieA.faces.toFinset = dieB.faces.toFinset ∧
    Game.init [dieA, dieB] = Except.error PyError.valueError :=
  ⟨rfl, rfl, by decide, rfl⟩

/-- C1 (amended): game construction fails with `MismatchedFaces` exactly when
some die's face array differs from the first die's face array under
element-wise, order-sensitive comparison (`np.array_equal`); it succeeds
exactly when every die's face array equals the first die's, same order —
regardless of weights, which are never consulted. -/
theorem c1_amended_mismatched_faces (d0 : Die) (rest : List Die) :
    (Game.init (d0 :: rest)
        = Except.ok { dice := d0 :: rest, results := none }
       ↔ ∀ d ∈ d0 :: rest, d.faces = d0.faces) ∧
    (Game.init (d0 :: rest) = Except.error PyError.valueError
       ↔ ∃ d ∈ d0 :: rest, d.faces ≠ d0.faces) := by
  have hcond : ((d0 :: rest).all (fun d => decide (d.faces = d0.faces)) = true)
      ↔ ∀ d ∈ d0 :: rest, d.faces = d0.faces := by
    simp [List.all_eq_true]
  simp only [Game.init]
  by_cases h : ∀ d ∈ d0 :: rest, d.faces = d0.faces
  · rw [if_pos (hcond.mpr h)]
    refine ⟨iff_of_true rfl h, iff_of_false (by simp) ?_⟩
    rintro ⟨d, hd, hne⟩
    exact hne (h d hd)
  · rw [if_neg (fun hc => h (hcond.mp hc))]
    refine ⟨iff_of_false (by simp) h, iff_of_true rfl ?_⟩
    push_neg at h
    exact h

/-- C2 counterexample: play the game whose single die has declared faces
`[7, 8]`.  `FacesPerRoll` returns the hard-coded column list
`[1, 2, 3, 4, 5, 6]` — not the sorted declared face domain `[7, 8]` — and
the column `1` lies outside the declared face set, while the observed face
`7` gets no column at all. -/
theorem c2_counterexample :
    Die.init [7, 8] = Except.ok die78 ∧
    Game.init [die78] = Except.ok game78 ∧
    (game78.play (fun _ _ => 0) 1).results = some [[7]] ∧
    Analyzer.n_faces_per_roll { game := game78.play (fun _ _ => 0) 1 }
      = Except.ok ([1, 2, 3, 4, 5, 6], [[0, 0, 0, 0, 0, 0]]) ∧
    ((1 : Int) ∈ [1, 2, 3, 4, 5, 6] ∧ (1 : Int) ∉ die78.faces) ∧
    [1, 2, 3, 4, 5, 6] ≠ sortRoll die78.faces :=
  ⟨rfl, rfl, by decide, rfl, by decide, by decide⟩

/-- C6: `adjust_weight` fails with `UnknownFace` (an `IndexError`) whenever
the face is absent from the frame's index — regardless of the weight
argument; fails with `InvalidWeightType` (a `TypeError`) when the weight is
neither numeric nor convertible to float; and on success replaces only the
weight of the given face: the face list, the index of the frame, and the
weight stored at every other face are unchanged, while the given face now
maps to the converted value. -/
theorem c6_adjust_weight (d : Die) (face : Int) (w : WeightInput) (v : ℚ)
    (hface : face ∈ d._die.map Prod.fst) (hv : w.toFloat = some v) :
    (∃ d₂, d.adjust_weight face w = Except.ok d₂ ∧
        d₂.faces = d.faces ∧
        d₂._die.map Prod.fst = d._die.map Prod.fst ∧
        (∀ f, f ≠ face → d₂._die.lookup f = d._die.lookup f) ∧
        d₂._die.lookup face = some v) ∧
    (∀ f w₂, f ∉ d._die.map Prod.fst →
        d.adjust_weight f w₂ = Except.error PyError.indexError) ∧
    (∀ w₂, WeightInput.toFloat w₂ = none →
        d.adjust_weight face w₂ = Except.error PyError.typeError) := by
  refine ⟨⟨{ d with
      _die := d._die.map (fun p => if p.1 = face then (p.1, v) else p) },
    ?_, rfl, mapFst_map_update _ _ _, ?_, ?_⟩, ?_, ?_⟩
  · simp [Die.adjust_weight, hface, hv]
  · intro f hf
    exact lookup_map_update_ne _ _ _ _ hf
  · obtain ⟨b, hb⟩ := lookup_isSome_of_mem d._die face hface
    rw [lookup_map_update_self, hb]
    rfl
  · intro f w₂ hf
    simp [Die.adjust_weight, hf]
  · intro w₂ hw
    simp [Die.adjust_weight, hface, hw]

/-- Witness for C6: the die on faces `[1, 2, 3]`, adjusting face `2` to the
numeric string `"5"`. -/
theorem c6_adjust_weight_witness :
    (∃ d₂, dieA.adjust_weight 2 (WeightInput.strNum 5) = Except.ok d₂ ∧
        d₂.faces = dieA.faces ∧
        d₂._die.map Prod.fst = dieA._die.map Prod.fst ∧
        (∀ f, f ≠ 2 → d₂._die.lookup f = dieA._die.lookup f) ∧
        d₂._die.lookup 2 = some 5) ∧
    (∀ f w₂, f ∉ dieA._die.map Prod.fst →
        dieA.adjust_weight f w₂ = Except.error PyError.indexError) ∧
    (∀ w₂, WeightInput.toFloat w₂ = none →
        dieA.adjust_weight 2 w₂ = Except.error PyError.typeError) :=
  c6_adjust_weight dieA 2 (WeightInput.strNum 5) 5 (by decide) rfl

/-- C7: rolling a die `n` times yields an ordered sequence of exactly `n`
values, each a member of the die's declared face set; the default call
yields exactly one value; and the die's stored state comes back unchanged. -/
theorem c7_roll_die (d : Die) (pick : Nat → Nat) (n : Nat)
    (hne : d._die ≠ []) (hkeys : d._die.map Prod.fst = d.faces) :
    (d.roll_die pick n).1.length = n ∧
    (∀ x ∈ (d.roll_die pick n).1, x ∈ d.faces) ∧
    (d.roll_die pick n).2 = d ∧
    (d.roll_die pick).1.length = 1 := by
  refine ⟨by simp [Die.roll_die], ?_, rfl, by simp [Die.roll_die]⟩
  intro x hx
  simp only [Die.roll_die, List.mem_map, List.mem_range] at hx
  obtain ⟨i, _, hx⟩ := hx
  have hlen : 0 < d._die.length := List.length_pos.mpr hne
  have hmod : pick i % d._die.length < (d._die.map Prod.fst).length := by
    rw [List.length_map]
    exact Nat.mod_lt _ hlen
  rw [← hx, List.getD_eq_getElem _ _ hmod]
  exact hkeys ▸ List.getElem_mem hmod

/-- Witness for C7: the die on faces `[1, 2, 3]`, a constant oracle, three
rolls. -/
theorem c7_roll_die_witness :
    (dieA.roll_die (fun _ => 5) 3).1.length = 3 ∧
    (∀ x ∈ (dieA.roll_die (fun _ => 5) 3).1, x ∈ dieA.faces) ∧
    (dieA.roll_die (fun _ => 5) 3).2 = dieA ∧
    (dieA.roll_die (fun _ => 5)).1.length = 1 :=
  c7_roll_die dieA (fun _ => 5) 3 (by decide) (by decide)

/-- Helper: flattening a list of lists that all have length `d` gives
`count * d` elements. -/
theorem length_flatten_const {α : Type} (L : List (List α)) (d : Nat)
    (h : ∀ x ∈ L, x.length = d) : L.flatten.length = L.length * d := by
  induction L with
  | nil => simp
  | cons x L ih =>
    have hx : x.length = d := h x (by simp)
    have ihL := ih (fun y hy => h y (by simp [hy]))
    simp [hx, ihL, Nat.succ_mul, Nat.add_comm]

/-- Helper: the narrow table of a wide table whose rows all have length `d`
has one row per cell. -/
theorem narrowRows_length (rows : List (List Int)) (d : Nat)
    (h : ∀ row ∈ rows, row.length = d) :
    (narrowRows rows).length = rows.length * d := by
  unfold narrowRows
  rw [length_flatten_const _ d, List.length_map, List.enum_length]
  intro x hx
  simp only [List.mem_map] at hx
  obtain ⟨p, hp, rfl⟩ := hx
  obtain ⟨i, row⟩ := p
  rw [List.length_map, List.enum_length]
  exact h row (List.getElem?_mem (List.mk_mem_enum_iff_getElem?.mp hp))

/-- C5: after `play(n)` on a game with at least one die, the wide results
table has exactly `n` rows and one column per die; the narrow table has one
row per (roll, die) cell — `n * len(dice)` of them — and `play` computes the
stored results from the dice and the draws alone, so any previously stored
results are replaced, never appended to. -/
theorem c5_play_shape (g : Game) (picks : Nat → Nat → Nat) (n : Nat)
    (_hn : 0 < n) (_hd : g.dice ≠ []) :
    ∃ rows, (g.play picks n).results = some rows ∧
      rows.length = n ∧
      (∀ row ∈ rows, row.length = g.dice.length) ∧
      (narrowRows rows).length = n * g.dice.length ∧
      (∀ r0, (Game.play { dice := g.dice, results := r0 } picks n).results
          = some rows) := by
  have hrow : ∀ row ∈ (List.range n).map
      (fun i => (g.dice.enum.map
        (fun p => (p.2.roll_die (picks p.1) n).1)).map (fun r => r.getD i 0)),
      row.length = g.dice.length := by
    intro row hrow
    simp only [List.mem_map, List.mem_range] at hrow
    obtain ⟨i, _, rfl⟩ := hrow
    simp
  refine ⟨_, rfl, by simp, hrow, ?_, fun r0 => rfl⟩
  rw [narrowRows_length _ g.dice.length hrow]
  simp [Nat.mul_comm]

/-- Witness for C5: the one-die game on faces `[1, 2, 3]`, a constant
oracle, two rolls. -/
theorem c5_play_shape_witness :
    ∃ rows, (gameA.play (fun _ _ => 0) 2).results = some rows ∧
      rows.length = 2 ∧
      (∀ row ∈ rows, row.length = gameA.dice.length) ∧
      (narrowRows rows).length = 2 * gameA.dice.length ∧
      (∀ r0, (Game.play { dice := gameA.dice, results := r0 }
          (fun _ _ => 0) 2).results = some rows) :=
  c5_play_shape gameA (fun _ _ => 0) 2 (by decide) (by decide)

/-- C9: `show_die` hands back a copy, not a live reference — the returned
frame has the same contents as the die's private frame but lives at a fresh
reference, and overwriting it leaves the frame the die references (hence
every later read of the die's state) untouched. -/
theorem c9_show_die_copy (s : PDStore) (dieRef : Nat)
    (h : dieRef < s.frames.length) :
    (show_die_heap s dieRef).1.read (show_die_heap s dieRef).2
        = s.read dieRef ∧
    (show_die_heap s dieRef).2 ≠ dieRef ∧
    (∀ df, ((show_die_heap s dieRef).1.write
        (show_die_heap s dieRef).2 df).read dieRef = s.read dieRef) := by
  refine ⟨?_, ?_, ?_⟩
  · show (s.frames ++ [s.read dieRef]).getD s.frames.length [] = s.read dieRef
    rw [List.getD_eq_getElem?_getD, List.getElem?_concat_length]
    rfl
  · exact Nat.ne_of_gt h
  · intro df
    show ((s.frames ++ [s.read dieRef]).set s.frames.length df).getD dieRef []
        = s.read dieRef
    rw [List.getD_eq_getElem?_getD, List.getElem?_set_ne (Nat.ne_of_gt h),
      List.getElem?_append_left h, ← List.getD_eq_getElem?_getD]
    rfl

/-- Helper: the boolean key-presence test of `tallyStep` in terms of
membership. -/
theorem tallyStep_cond {α : Type} [DecidableEq α] (acc : List (α × Nat)) (k : α) :
    (acc.any (fun p => decide (p.1 = k)) = true) ↔ k ∈ acc.map Prod.fst := by
  simp [List.any_eq_true]

/-- Helper: the keys of `tallyStep acc k` — unchanged when `k` is already a
key, `k` appended otherwise. -/
theorem tallyStep_keys {α : Type} [DecidableEq α] (acc : List (α × Nat)) (k : α) :
    (tallyStep acc k).map Prod.fst
      = if k ∈ acc.map Prod.fst then acc.map Prod.fst
        else acc.map Prod.fst ++ [k] := by
  unfold tallyStep
  by_cases h : k ∈ acc.map Prod.fst
  · rw [if_pos ((tallyStep_cond acc k).mpr h), if_pos h, mapFst_map_update]
  · rw [if_neg (fun hx => h ((tallyStep_cond acc k).mp hx)), if_neg h,
      List.map_append]
    rfl

/-- Helper: `tallyStep` keeps the keys duplicate-free. -/
theorem tallyStep_keys_nodup {α : Type} [DecidableEq α]
    (acc : List (α × Nat)) (k : α) (h : (acc.map Prod.fst).Nodup) :
    ((tallyStep acc k).map Prod.fst).Nodup := by
  rw [tallyStep_keys]
  by_cases hk : k ∈ acc.map Prod.fst
  · rw [if_pos hk]
    exact h
  · rw [if_neg hk]
    simp [List.nodup_append, h, hk]

/-- Helper: `sumCounts` of a cons. -/
theorem sumCounts_cons {α : Type} (p : α × Nat) (l : List (α × Nat)) :
    sumCounts (p :: l) = p.2 + sumCounts l := by
  simp [sumCounts]

/-- Helper: incrementing every entry at key `k` adds the key-multiplicity to
the count sum. -/
theorem sum_map_update {α : Type} [DecidableEq α] (l : List (α × Nat)) (k : α) :
    sumCounts (l.map (fun p => if p.1 = k then (p.1, p.2 + 1) else p))
      = sumCounts l + (l.map Prod.fst).count k := by
  induction l with
  | nil => rfl
  | cons p l ih =>
    obtain ⟨a, b⟩ := p
    by_cases hp : a = k
    · subst hp
      rw [List.map_cons, if_pos (rfl : (a, b).1 = a), sumCounts_cons,
        sumCounts_cons, ih, List.map_cons, List.count_cons_self]
      omega
    · rw [List.map_cons, if_neg (hp : ¬(a, b).1 = k), sumCounts_cons,
        sumCounts_cons, ih, List.map_cons, List.count_cons_of_ne (Ne.symm hp)]
      omega

/-- Helper: one tally step adds exactly one to the count sum. -/
theorem tallyStep_sum {α : Type} [DecidableEq α] (acc : List (α × Nat)) (k : α)
    (h : (acc.map Prod.fst).Nodup) :
    sumCounts (tallyStep acc k) = sumCounts acc + 1 := by
  unfold tallyStep
  by_cases hk : k ∈ acc.map Prod.fst
  · rw [if_pos ((tallyStep_cond acc k).mpr hk), sum_map_update,
      List.count_eq_one_of_mem h hk]
  · rw [if_neg (fun hx => hk ((tallyStep_cond acc k).mp hx))]
    simp [sumCounts]

/-- Helper: folding `tallyStep` keeps the keys duplicate-free. -/
theorem foldl_tallyStep_nodup {α : Type} [DecidableEq α] (l : List α)
    (acc : List (α × Nat)) (h : (acc.map Prod.fst).Nodup) :
    ((List.foldl tallyStep acc l).map Prod.fst).Nodup := by
  induction l generalizing acc with
  | nil => exact h
  | cons a l ih => exact ih _ (tallyStep_keys_nodup _ _ h)

/-- Helper: folding `tallyStep` over `l` adds `l.length` to the count sum. -/
theorem foldl_tallyStep_sum {α : Type} [DecidableEq α] (l : List α)
    (acc : List (α × Nat)) (h : (acc.map Prod.fst).Nodup) :
    sumCounts (List.foldl tallyStep acc l) = sumCounts acc + l.length := by
  induction l generalizing acc with
  | nil => simp
  | cons a l ih =>
    rw [List.foldl_cons, ih _ (tallyStep_keys_nodup _ _ h), tallyStep_sum _ _ h,
      List.length_cons]
    omega

/-- The counts tallied over a list sum to its length — every element lands in
exactly one dict entry. -/
theorem tally_sumCounts {α : Type} [DecidableEq α] (l : List α) :
    sumCounts (tally l) = l.length := by
  unfold tally
  rw [foldl_tallyStep_sum l [] (by simp)]
  simp [sumCounts]

/-- Helper: key membership after one tally step. -/
theorem tallyStep_mem_keys {α : Type} [DecidableEq α] (acc : List (α × Nat))
    (k k' : α) :
    k' ∈ (tallyStep acc k).map Prod.fst
      ↔ k' ∈ acc.map Prod.fst ∨ k' = k := by
  rw [tallyStep_keys]
  by_cases hk : k ∈ acc.map Prod.fst
  · rw [if_pos hk]
    constructor
    · exact Or.inl
    · rintro (h | rfl)
      · exact h
      · exact hk
  · rw [if_neg hk]
    simp

/-- Helper: key membership after folding `tallyStep`. -/
theorem foldl_tallyStep_mem {α : Type} [DecidableEq α] (l : List α)
    (acc : List (α × Nat)) (k' : α) :
    k' ∈ (List.foldl tallyStep acc l).map Prod.fst
      ↔ k' ∈ acc.map Prod.fst ∨ k' ∈ l := by
  induction l generalizing acc with
  | nil => simp
  | cons a l ih =>
    rw [List.foldl_cons, ih, tallyStep_mem_keys]
    simp [List.mem_cons, or_assoc]

/-- The dict built by tallying has one key per distinct element. -/
theorem tally_mem_keys {α : Type} [DecidableEq α] (l : List α) (k : α) :
    k ∈ (tally l).map Prod.fst ↔ k ∈ l := by
  unfold tally
  rw [foldl_tallyStep_mem]
  simp

/-- The tally of a list has one row per distinct element. -/
theorem tally_length {α : Type} [DecidableEq α] (l : List α) :
    (tally l).length = l.toFinset.card := by
  have hnd : ((tally l).map Prod.fst).Nodup := by
    unfold tally
    exact foldl_tallyStep_nodup l [] (by simp)
  rw [show (tally l).length = ((tally l).map Prod.fst).length from
    (List.length_map _ _).symm, ← List.toFinset_card_of_nodup hnd]
  congr 1
  ext x
  simp only [List.mem_toFinset]
  exact tally_mem_keys l x

/-- Helper: lookup distributes over an append of association lists. -/
theorem lookup_append {α β : Type} [BEq α]
    (l l' : List (α × β)) (k : α) :
    (l ++ l').lookup k = ((l.lookup k).orElse (fun _ => l'.lookup k)) := by
  induction l with
  | nil => rfl
  | cons p l ih =>
    obtain ⟨a, b⟩ := p
    rcases hk : k == a with _ | _
    · simp [List.lookup, hk, ih]
    · simp [List.lookup, hk]

/-- Helper: the counted value after one tally step. -/
theorem tallyStep_lookupD {α : Type} [BEq α] [LawfulBEq α] [DecidableEq α]
    (acc : List (α × Nat)) (k k' : α) :
    ((tallyStep acc k).lookup k').getD 0
      = (acc.lookup k').getD 0 + if k' = k then 1 else 0 := by
  unfold tallyStep
  by_cases hk : k ∈ acc.map Prod.fst
  · rw [if_pos ((tallyStep_cond acc k).mpr hk)]
    by_cases he : k' = k
    · subst he
      rw [lookup_map_update_self]
      obtain ⟨b, hb⟩ := lookup_isSome_of_mem acc k' hk
      rw [hb]
      simp
    · rw [lookup_map_update_ne _ _ _ _ he, if_neg he]
      omega
  · rw [if_neg (fun hx => hk ((tallyStep_cond acc k).mp hx))]
    by_cases he : k' = k
    · subst he
      have hnone : acc.lookup k' = none := (lookup_eq_none_iff acc k').mpr hk
      rw [lookup_append, hnone, if_pos rfl]
      simp [List.lookup]
    · have hsingle : List.lookup k' [(k, 1)] = none := by
        have hb : (k' == k) = false := beq_eq_false_iff_ne.mpr he
        simp [List.lookup, hb]
      rw [lookup_append, hsingle, if_neg he]
      cases acc.lookup k' <;> simp

/-- Helper: the counted value after folding `tallyStep`. -/
theorem foldl_tallyStep_lookupD {α : Type} [BEq α] [LawfulBEq α] [DecidableEq α]
    (l : List α) (acc : List (α × Nat)) (k : α) :
    ((List.foldl tallyStep acc l).lookup k).getD 0
      = (acc.lookup k).getD 0 + l.count k := by
  induction l generalizing acc with
  | nil => simp
  | cons a l ih =>
    rw [List.foldl_cons, ih, tallyStep_lookupD, List.count_cons]
    by_cases he : k = a
    · rw [if_pos he, show (a == k) = true from beq_iff_eq.mpr he.symm, if_pos rfl]
      omega
    · rw [if_neg he,
        show (a == k) = false from beq_eq_false_iff_ne.mpr (Ne.symm he)]
      simp

/-- The tally dict counts exactly the multiplicity of each key, with `0` for
absent keys (the `dict.get(face, 0)` convention of the source). -/
theorem tally_lookupD {α : Type} [BEq α] [LawfulBEq α] [DecidableEq α]
    (l : List α) (k : α) :
    ((tally l).lookup k).getD 0 = l.count k := by
  unfold tally
  rw [foldl_tallyStep_lookupD]
  simp [List.lookup]

/-- Helper: a nonempty list has value-set size one iff all its elements are
pairwise equal. -/
theorem dedup_length_one_iff (roll : List Int) (h : roll ≠ []) :
    roll.dedup.length = 1 ↔ ∀ x ∈ roll, ∀ y ∈ roll, x = y := by
  constructor
  · intro h1 x hx y hy
    obtain ⟨a, ha⟩ := List.length_eq_one.mp h1
    have hx2 : x ∈ roll.dedup := List.mem_dedup.mpr hx
    have hy2 : y ∈ roll.dedup := List.mem_dedup.mpr hy
    rw [ha, List.mem_singleton] at hx2 hy2
    rw [hx2, hy2]
  · intro hall
    obtain ⟨z, roll2, rfl⟩ := List.exists_cons_of_ne_nil h
    rw [← List.card_toFinset, Finset.card_eq_one]
    refine ⟨z, ?_⟩
    ext x
    simp only [List.mem_toFinset, Finset.mem_singleton]
    constructor
    · intro hx
      exact hall x hx z (by simp)
    · intro hx
      subst hx
      simp

/-- C3: `CountJackpots` returns the number of rows of the results table in
which every die's outcome is identical (0 when there is none), and on the
concrete scenario `Die1 = [1, 2, 3, 1, 5]`, `Die2 = [1, 2, 4, 1, 6]` it
returns 3. -/
theorem c3_jackpots (a : Analyzer) (rows : List (List Int))
    (hplayed : a.game.results = some rows) (hne : ∀ r ∈ rows, r ≠ []) :
    a.n_jackpots = Except.ok
      ((rows.filter
        (fun roll => decide (∀ x ∈ roll, ∀ y ∈ roll, x = y))).length) ∧
    n_jackpots_rows jackpotRows = 3 := by
  refine ⟨?_, by decide⟩
  simp only [Analyzer.n_jackpots, hplayed]
  congr 1
  unfold n_jackpots_rows
  rw [List.countP_eq_length_filter]
  congr 1
  apply List.filter_congr
  intro roll hroll
  simp only [decide_eq_decide]
  exact dedup_length_one_iff roll (hne roll hroll)

/-- Witness for C3: the analyzer over the concrete scenario's results. -/
theorem c3_jackpots_witness :
    Analyzer.n_jackpots ⟨{ dice := [dieA], results := some jackpotRows }⟩
      = Except.ok ((jackpotRows.filter
        (fun roll => decide (∀ x ∈ roll, ∀ y ∈ roll, x = y))).length) ∧
    n_jackpots_rows jackpotRows = 3 :=
  c3_jackpots ⟨{ dice := [dieA], results := some jackpotRows }⟩ jackpotRows
    rfl (by decide)

/-- Helper: mapping a function over a list cannot increase the number of
distinct elements. -/
theorem toFinset_map_card_le {α β : Type} [DecidableEq α] [DecidableEq β]
    (l : List α) (f : α → β) :
    (l.map f).toFinset.card ≤ l.toFinset.card := by
  have himg : (l.map f).toFinset = l.toFinset.image f := by
    ext x
    simp [List.mem_map]
  rw [himg]
  exact Finset.card_image_le

/-- C4: for every played game the counts of `Combinations` and of
`Permutations` both sum to the total roll count, and the permutations table
has at least as many rows as the combinations table. -/
theorem c4_combinations_permutations (a : Analyzer) (rows : List (List Int))
    (hplayed : a.game.results = some rows) :
    ∃ ct pt, a.n_combinations = Except.ok ct ∧ a.n_permutations = Except.ok pt ∧
      sumCounts ct = rows.length ∧
      sumCounts pt = rows.length ∧
      ct.length ≤ pt.length := by
  refine ⟨n_combinations_rows rows, n_permutations_rows rows,
    by simp [Analyzer.n_combinations, hplayed],
    by simp [Analyzer.n_permutations, hplayed], ?_, ?_, ?_⟩
  · rw [show n_combinations_rows rows = tally (rows.map sortRoll) from rfl,
      tally_sumCounts, List.length_map]
  · exact tally_sumCounts rows
  · unfold n_combinations_rows n_permutations_rows
    rw [tally_length, tally_length]
    exact toFinset_map_card_le rows sortRoll

/-- Witness for C4: the analyzer over the concrete scenario's results. -/
theorem c4_combinations_permutations_witness :
    ∃ ct pt,
      Analyzer.n_combinations ⟨{ dice := [dieA], results := some jackpotRows }⟩
        = Except.ok ct ∧
      Analyzer.n_permutations ⟨{ dice := [dieA], results := some jackpotRows }⟩
        = Except.ok pt ∧
      sumCounts ct = jackpotRows.length ∧
      sumCounts pt = jackpotRows.length ∧
      ct.length ≤ pt.length :=
  c4_combinations_permutations
    ⟨{ dice := [dieA], results := some jackpotRows }⟩ jackpotRows rfl

/-- The closed form of `n_faces_per_roll_rows`: fixed columns `1..6`, each
cell a multiplicity. -/
theorem n_faces_per_roll_rows_eq (rows : List (List Int)) :
    n_faces_per_roll_rows rows
      = (facesDomain,
         rows.map (fun roll => facesDomain.map (fun f => roll.count f))) := by
  simp only [n_faces_per_roll_rows, List.map_map]
  refine congrArg (Prod.mk facesDomain) ?_
  apply List.map_congr_left
  intro roll _
  apply List.map_congr_left
  intro f _
  exact tally_lookupD roll f

/-- C2 (amended): for every played game, `FacesPerRoll` returns a table whose
column list is always the hard-coded sorted list `[1, 2, 3, 4, 5, 6]`,
independent of the face domain the game's dice declare (declared faces
outside `1..6` get no column, observed values outside `1..6` are dropped);
cell `(i, f)` counts the occurrences of face `f` among the outcomes of roll
`i`, `0` when absent. -/
theorem c2_amended_faces_per_roll (a : Analyzer) (rows : List (List Int))
    (hplayed : a.game.results = some rows) :
    a.n_faces_per_roll = Except.ok
      ([1, 2, 3, 4, 5, 6],
       rows.map (fun roll =>
         ([1, 2, 3, 4, 5, 6] : List Int).map (fun f => roll.count f))) := by
  simp only [Analyzer.n_faces_per_roll, hplayed]
  rw [n_faces_per_roll_rows_eq]
  rfl

/-- Witness for C2 (amended): a played one-die game whose single roll came up
double ones. -/
theorem c2_amended_faces_witness :
    Analyzer.n_faces_per_roll ⟨{ dice := [dieA], results := some [[1, 1]] }⟩
      = Except.ok
        ([1, 2, 3, 4, 5, 6],
         [[1, 1]].map (fun roll =>
           ([1, 2, 3, 4, 5, 6] : List Int).map (fun f => roll.count f))) :=
  c2_amended_faces_per_roll
    ⟨{ dice := [dieA], results := some [[1, 1]] }⟩ [[1, 1]] rfl

/-- Witness for C9: a store holding one two-face frame, the die referencing
frame 0. -/
theorem c9_show_die_copy_witness :
    (show_die_heap ⟨[[(1, 1), (2, 1)]]⟩ 0).1.read
        (show_die_heap ⟨[[(1, 1), (2, 1)]]⟩ 0).2
      = PDStore.read ⟨[[(1, 1), (2, 1)]]⟩ 0 ∧
    (show_die_heap ⟨[[(1, 1), (2, 1)]]⟩ 0).2 ≠ 0 ∧
    (∀ df, ((show_die_heap ⟨[[(1, 1), (2, 1)]]⟩ 0).1.write
        (show_die_heap ⟨[[(1, 1), (2, 1)]]⟩ 0).2 df).read 0
      = PDStore.read ⟨[[(1, 1), (2, 1)]]⟩ 0) :=
  c9_show_die_copy ⟨[[(1, 1), (2, 1)]]⟩ 0 (by decide)

end MonteCarlo
